import Mathlib

/-!
Shallow embedding of the core data-processing functions of the
pypsa-meets-africa scripts (`scripts/_helpers.py`,
`scripts/add_extra_components.py`, `scripts/build_natura_raster.py`),
together with theorems settling the frozen claims C1 to C10.

Conventions used throughout:
* pandas data frames become Lean lists of records; a column that may be
  absent or NaN becomes an `Option` field, and `fillna(0)` or
  `dict.get(key, default)` becomes `Option.getD`;
* Python floats are idealised as exact rationals (`ℚ`) or reals (`ℝ`);
* Python exceptions become `Except String`, carrying the message of the
  exception that the Python code actually raises;
* Python string comparison is lexicographic on the character sequence,
  which in Lean is the order on `String.data` (a `List Char`); the
  embedding compares `.data` so that terms evaluate by kernel reduction;
* external libraries (shapely geometry predicates, `coco.convert`,
  `shapely.ops.unary_union`) enter as explicit parameters of the
  embedded functions, constrained only by hypotheses stated in the
  theorems that need them.
-/

/-! Part 1: generic helpers shared by several embedded functions -/

/-- Boolean lexicographic string comparison, the order Python uses for
`str < str`; identical to the `LinearOrder String` order of Mathlib
(see `strLtB_eq_true_iff`) but kernel-reducible on concrete strings. -/
def strLtB (a b : String) : Bool := decide (a.data < b.data)

/-- Boolean substring test, modelling `pandas.Series.str.contains(pat)`
for a pattern without regex metacharacters (all scope strings appearing
in this code are country codes). -/
def strContainsSub (s pat : String) : Bool := decide (pat.data <:+: s.data)

/-- Model of `pandas.Series.item()`: returns the sole element of the series and
raises `ValueError` ("can only convert an array of size 1 to a Python
scalar") when the series does not have exactly one element. -/
def seriesItem {α : Type} : List α → Except String α
  | [a] => Except.ok a
  | _ => Except.error "can only convert an array of size 1 to a Python scalar"

/-- Python `min(a :: l, key := f)`: scans left to right keeping the
current minimum and replacing it only on a strictly smaller key, so the
first element attaining the minimum wins. -/
def minBy {α : Type} (f : α → ℚ) : α → List α → α
  | a, [] => a
  | a, b :: l => if f b < f a then minBy f b l else minBy f a l

/-- Arithmetic mean of a list of rationals, as used by
`DataFrameGroupBy.mean` on each group of a numeric column. -/
def qmean (xs : List ℚ) : ℚ := xs.sum / xs.length

/-! Part 2: RegionLocator, `locate_bus` (`scripts/_helpers.py`, lines 1074-1132)

The geometry operations come from shapely.  For the purposes of the
claims the geometries are modelled concretely as axis-aligned rational
boxes, for which the shapely predicates have exact counterparts:
`contains` holds exactly on the open interior (the shapely `contains`
excludes the boundary), and the Euclidean distance to a box is zero on
the box and attains its minimum together with its square, so the Python
`min(..., key=point.distance)` selects the same element as minimising
the squared distance used here. -/

/-- A geographic point, the shapely `Point(coords["x"], coords["y"])`. -/
structure Pt where
  x : ℚ
  y : ℚ
deriving DecidableEq

/-- An axis-aligned box standing in for a shapely polygon geometry;
`x0 ≤ x1` and `y0 ≤ y1` are expected of well-formed inputs. -/
structure Box where
  x0 : ℚ
  y0 : ℚ
  x1 : ℚ
  y1 : ℚ
deriving DecidableEq

/-- Shapely `geometry.contains(point)` for a box: the point lies in the
open interior (boundary points are not contained). -/
def Box.containsPt (b : Box) (p : Pt) : Bool :=
  decide (b.x0 < p.x ∧ p.x < b.x1 ∧ b.y0 < p.y ∧ p.y < b.y1)

/-- Squared Euclidean distance from a point to a box (zero on the box,
including its boundary); the monotone square of shapely
`point.distance(geometry)`. -/
def Box.distSq (b : Box) (p : Pt) : ℚ :=
  let dx := max (max (b.x0 - p.x) (p.x - b.x1)) 0
  let dy := max (max (b.y0 - p.y) (p.y - b.y1)) 0
  dx * dx + dy * dy

/-- One row of the GeoDataFrame seen by `locate_bus` after loading: the
value of the chosen identifier column `col` and the row geometry. -/
structure Region where
  id : String
  geom : Box
deriving DecidableEq

/-- Embedding of `locate_bus` from `scripts/_helpers.py`, starting from the loaded
GeoDataFrame `regions` whose `id` field holds the chosen identifier
column.  Mirrors the source: filter the rows whose identifier contains
the scope string `co`; try `gdf_co[gdf_co.contains(point)][col].item()`;
on `ValueError` fall back to
`gdf_co[gdf_co.geometry == min(gdf_co.geometry, key=point.distance)][col].item()`,
where `min` on an empty sequence raises an uncaught `ValueError` and the
geometry comparison `==` is exact coordinate equality. -/
def locate_bus (regions : List Region) (co : String) (p : Pt) :
    Except String String :=
  let gdf_co := regions.filter fun r => strContainsSub r.id co
  match seriesItem ((gdf_co.filter fun r => r.geom.containsPt p).map Region.id) with
  | Except.ok v => Except.ok v
  | Except.error _ =>
    match gdf_co with
    | [] => Except.error "min() arg is an empty sequence"
    | r0 :: rest =>
      let m := minBy (fun r => r.geom.distSq p) r0 rest
      seriesItem ((gdf_co.filter fun r => decide (r.geom = m.geom)).map Region.id)

/-! Part 3: TopologyBuilder, `create_network_topology`
(`scripts/_helpers.py`, lines 907-957) -/

/-- A row of `n.lines[["bus0", "bus1", "length"]]`. -/
structure LineRec where
  bus0 : String
  bus1 : String
  length : ℚ
deriving DecidableEq

/-- A row of `n.links` with the attributes the function reads; the
`underwater_fraction` column may be absent or NaN (`none`). -/
structure LinkRow where
  bus0 : String
  bus1 : String
  length : ℚ
  carrier : String
  underwater_fraction : Option ℚ
deriving DecidableEq

/-- A normalised candidate edge after
`pd.concat([n.lines[ln_attrs], n.links.loc[n.links.carrier == "DC", lk_attrs]]).fillna(0)`:
lines contribute `underwater_fraction = 0` (NaN filled), links
contribute their value with NaN filled by 0 (the in-source temporary
fix assigns 0.0 when the column is missing on a non-empty frame). -/
structure Cand where
  bus0 : String
  bus1 : String
  length : ℚ
  uf : ℚ
deriving DecidableEq

/-- The `swap_buses` rename: exchange `bus0` and `bus1`, keep the rest. -/
def swapBuses (c : Cand) : Cand :=
  { c with bus0 := c.bus1, bus1 := c.bus0 }

/-- The concatenated, `fillna(0)`-completed candidate table. -/
def candidatesOf (lines : List LineRec) (links : List LinkRow) : List Cand :=
  lines.map (fun l => ⟨l.bus0, l.bus1, l.length, 0⟩) ++
    (links.filter fun k => k.carrier == "DC").map
      (fun k => ⟨k.bus0, k.bus1, k.length, k.underwater_fraction.getD 0⟩)

/-- Normalization step `positive_order = candidates.bus0 < candidates.bus1`; rows failing it
(including `bus0 = bus1`) are renamed by `swap_buses`, and the two parts
are re-concatenated in that order. -/
def normalizeCands (cs : List Cand) : List Cand :=
  cs.filter (fun c => strLtB c.bus0 c.bus1) ++
    (cs.filter fun c => ! strLtB c.bus0 c.bus1).map swapBuses

/-- Ordering on group keys: `groupby(["bus0", "bus1"])` sorts the group
keys lexicographically (pandas default `sort=True`). -/
def keyLE (a b : String × String) : Prop :=
  a.1.data < b.1.data ∨ (a.1 = b.1 ∧ a.2.data ≤ b.2.data)

instance : DecidableRel keyLE := fun a b => by
  unfold keyLE; infer_instance

/-- The sorted list of distinct `(bus0, bus1)` group keys. -/
def topoKeys (cs : List Cand) : List (String × String) :=
  List.insertionSort keyLE ((cs.map fun c => (c.bus0, c.bus1)).dedup)

/-- The rows of one `groupby` group. -/
def groupRows (cs : List Cand) (k : String × String) : List Cand :=
  cs.filter fun c => decide (c.bus0 = k.1 ∧ c.bus1 = k.2)

/-- One output row of the topology table: the computed index
(`make_index`) plus the grouped columns. -/
structure TopoRow where
  id : String
  bus0 : String
  bus1 : String
  length : ℚ
  uf : ℚ
deriving DecidableEq

/-- Model of `make_index`: the prefix, then `c.bus0`, the connector and `c.bus1`. -/
def makeIndex (pfx connector bus0 bus1 : String) : String :=
  pfx ++ bus0 ++ connector ++ bus1

/-- The reversed copy produced when `bidirectional=False`: swap the bus
columns and recompute the index from the swapped row. -/
def reverseRow (pfx connector : String) (r : TopoRow) : TopoRow :=
  ⟨makeIndex pfx connector r.bus1 r.bus0, r.bus1, r.bus0, r.length, r.uf⟩

/-- Embedding of `create_network_topology(n, prefix, connector, bidirectional)` from
`scripts/_helpers.py`: normalise the candidate edges, group by
`(bus0, bus1)` taking the arithmetic mean of the numeric columns, index
each row by `make_index`, and when not bidirectional append a reversed
copy of every row. -/
def create_network_topology (lines : List LineRec) (links : List LinkRow)
    (pfx connector : String) (bidirectional : Bool) : List TopoRow :=
  let cands := normalizeCands (candidatesOf lines links)
  let topo := (topoKeys cands).map fun k =>
    let g := groupRows cands k
    ⟨makeIndex pfx connector k.1 k.2, k.1, k.2,
      qmean (g.map Cand.length), qmean (g.map Cand.uf)⟩
  if bidirectional then topo else topo ++ topo.map (reverseRow pfx connector)

/-! Part 4: LengthBasedEfficiency, `set_length_based_efficiency`
(`scripts/add_extra_components.py`, lines 272-310)

The scalar type is a parameter `K` together with the power operation
`pw`, so that the same definition can be read at `K = ℝ` with the real
power (the idealisation of the float `**`) in the theorems and at
`K = ℚ` in concrete witnesses that never touch the power. -/

/-- A row of `n.links` with the attributes the function touches; `bus2`
and `efficiency2` may be unset (`none`), as before `madd` assigns them. -/
structure Link (K : Type) where
  carrier : String
  bus0 : String
  length : K
  efficiency : K
  bus2 : Option String
  efficiency2 : Option K
deriving DecidableEq

/-- The per-carrier entry of
`config["sector"]["transmission_efficiency"][carrier]`; a missing key
(`none`) falls back to the neutral default via `dict.get`. -/
structure EffConfig (K : Type) where
  efficiency_static : Option K
  efficiency_per_1000km : Option K
  compression_per_1000km : Option K
deriving DecidableEq

/-- Python `str.removesuffix(sfx)`: drop the suffix when present,
otherwise return the string unchanged. -/
def removeSfx (s sfx : String) : String :=
  if sfx.data.IsSuffix s.data then
    ⟨s.data.take (s.data.length - sfx.data.length)⟩
  else s

/-- Embedding of `set_length_based_efficiency(n, carrier, bus_suffix, config)` from
`scripts/add_extra_components.py`, acting on the list of link rows of
`n.links`: rows of the matching carrier get
`efficiency = efficiency_static * efficiency_per_1000km ** (length / 1e3)`
(with `pw` the power operation), and additionally, when
`compression_per_1000km > 0`, `bus2 = bus0.removesuffix(bus_suffix)` and
`efficiency2 = -compression_per_1000km * length / 1e3`; all other rows
are untouched. -/
def set_length_based_efficiency {K : Type} [LinearOrderedField K]
    (pw : K → K → K) (carrier bus_sfx : String) (cfg : EffConfig K)
    (links : List (Link K)) : List (Link K) :=
  let efficiency_static := cfg.efficiency_static.getD 1
  let efficiency_per_1000km := cfg.efficiency_per_1000km.getD 1
  let compression_per_1000km := cfg.compression_per_1000km.getD 0
  links.map fun l =>
    if l.carrier == carrier then
      let l1 := { l with
        efficiency := efficiency_static * pw efficiency_per_1000km (l.length / 1000) }
      if 0 < compression_per_1000km then
        { l1 with
          bus2 := some (removeSfx l.bus0 bus_sfx),
          efficiency2 := some (-compression_per_1000km * l.length / 1000) }
      else l1
    else l

/-! Part 5: CountryCodeNormalizer, `two_2_three_digits_country` and
`three_2_two_digits_country` (`scripts/_helpers.py`, lines 492-531)

`coco.convert(code, to="ISO3")` and `coco.convert(code, to="ISO2")` are
the external `country_converter` library and enter as the parameters
`conv23` and `conv32`. -/

/-- Embedding of `two_2_three_digits_country` from `scripts/_helpers.py`.  The source
special-cases `"SN-GM"` by recursing on `"SN"` and `"GM"`; neither of
those equals `"SN-GM"`, so the recursive calls immediately take the
`coco.convert` branch, which is inlined here. -/
def two_2_three_digits_country (conv23 : String → String)
    (two_code_country : String) : String :=
  if two_code_country = "SN-GM" then conv23 "SN" ++ "-" ++ conv23 "GM"
  else conv23 two_code_country

/-- Embedding of `three_2_two_digits_country` from `scripts/_helpers.py`.  The source
special-cases `"SEN-GMB"` by recursing on the two-letter strings `"SN"`
and `"GM"`; neither equals `"SEN-GMB"`, so the recursive calls
immediately take the `coco.convert` branch, which is inlined here. -/
def three_2_two_digits_country (conv32 : String → String)
    (three_code_country : String) : String :=
  if three_code_country = "SEN-GMB" then conv32 "SN" ++ "-" ++ conv32 "GM"
  else conv32 three_code_country

/-! Part 6: the `get_gadm_layer` layer selection (`scripts/_helpers.py`,
lines 1046-1056)

Only the in-memory layer-index computation is embedded; the download and
file reads around it are I/O.  The Python guard
`if layer_id < 0 | layer_id >= len(list_layers):` parses as the chained
comparison `layer_id < (0 | layer_id) >= len(list_layers)`, i.e.
`layer_id < (0 | layer_id) and (0 | layer_id) >= len(list_layers)`,
with the middle operand `0 | layer_id` (bitwise or) evaluated once. -/

/-- The guard expression of `get_gadm_layer`, exactly as Python parses
it. -/
def get_gadm_layer_guard (layer_id : ℤ) (n_layers : ℕ) : Bool :=
  decide (layer_id < Int.lor 0 layer_id) &&
    decide ((n_layers : ℤ) ≤ Int.lor 0 layer_id)

/-- The `code_layer` computed by `get_gadm_layer`: when the guard fires,
`layer_id` is first replaced by `len(list_layers) - 1`; then
`code_layer = np.mod(layer_id, len(list_layers))` (`np.mod` on Python
ints agrees with `Int.emod` for a positive modulus: result in
`[0, n)`). -/
def get_gadm_code_layer (layer_id : ℤ) (n_layers : ℕ) : ℤ :=
  let lid := if get_gadm_layer_guard layer_id n_layers
    then (n_layers : ℤ) - 1 else layer_id
  Int.emod lid n_layers

/-! Part 7: `unify_protected_shape_areas` (`scripts/build_natura_raster.py`,
lines 81-114)

The shapely operations are parameters: `buffer0` is the zero-width
buffer `geom.buffer(0)` and `uu` is `shapely.ops.unary_union`, which may
raise (modelled as `Except`).  A geometry is modelled as an abstract
payload plus its shapely validity flag. -/

/-- An abstract shapely geometry: an opaque payload tag and the value of
`geom.is_valid`. -/
structure PGeom where
  tag : ℕ
  valid : Bool
deriving DecidableEq

/-- The repair comprehension of `unify_protected_shape_areas`:
`[geom if geom.is_valid else geom.buffer(0) for geom in shape["geometry"]]`. -/
def repairGeoms (buffer0 : PGeom → PGeom) (gs : List PGeom) : List PGeom :=
  gs.map fun g => if g.valid then g else buffer0 g

/-- Embedding of `unify_protected_shape_areas` from `scripts/build_natura_raster.py`,
from the loaded geometry column onwards: repair each geometry, then call
`unary_union` on the repaired list; any exception raised by
`unary_union` propagates to the caller, as the source wraps it in no
handler. -/
def unify_protected_shape_areas (buffer0 : PGeom → PGeom)
    (uu : List PGeom → Except String PGeom) (gs : List PGeom) :
    Except String PGeom :=
  uu (repairGeoms buffer0 gs)

/-! Part 8: helper lemmas -/

/-- The boolean comparison `strLtB` decides the Mathlib linear order on
strings. -/
theorem strLtB_eq_true_iff (a b : String) : strLtB a b = true ↔ a < b := by
  simp [strLtB, String.lt_iff_toList_lt, String.toList]

/-- Negative form of `strLtB_eq_true_iff`. -/
theorem strLtB_eq_false_iff (a b : String) : strLtB a b = false ↔ ¬ a < b := by
  rw [Bool.eq_false_iff, Ne, strLtB_eq_true_iff]

/-- Bitwise or with zero on the left is the identity on integers. -/
theorem int_zero_lor (x : ℤ) : Int.lor 0 x = x := by
  cases x with
  | ofNat n => simp [Int.lor, Nat.zero_or]
  | negSucc n => simp [Int.lor, Nat.ldiff]

/-- The element selected by `minBy` comes from the scanned list. -/
theorem minBy_mem {α : Type} (f : α → ℚ) (a : α) (l : List α) :
    minBy f a l ∈ a :: l := by
  induction l generalizing a with
  | nil => simp [minBy]
  | cons b t ih =>
    simp only [minBy]
    by_cases h : f b < f a
    · rw [if_pos h]
      rcases List.mem_cons.mp (ih b) with h1 | h1 <;> simp [h1]
    · rw [if_neg h]
      rcases List.mem_cons.mp (ih a) with h1 | h1 <;> simp [h1]

/-- The key of the element selected by `minBy` is a lower bound for the
keys of the whole scanned list. -/
theorem minBy_le {α : Type} (f : α → ℚ) (a : α) (l : List α) :
    ∀ b ∈ a :: l, f (minBy f a l) ≤ f b := by
  induction l generalizing a with
  | nil =>
    intro b hb
    rcases List.mem_cons.mp hb with rfl | hb
    · exact le_of_eq rfl
    · exact absurd hb (List.not_mem_nil b)
  | cons c t ih =>
    intro b hb
    simp only [minBy]
    rcases List.mem_cons.mp hb with rfl | hb1
    · by_cases h : f c < f b
      · rw [if_pos h]
        exact le_trans (ih c c (List.mem_cons_self c t)) (le_of_lt h)
      · rw [if_neg h]
        exact ih b b (List.mem_cons_self b t)
    · rcases List.mem_cons.mp hb1 with rfl | hb2
      · by_cases h : f b < f a
        · rw [if_pos h]
          exact ih b b (List.mem_cons_self b t)
        · rw [if_neg h]
          exact le_trans (ih a a (List.mem_cons_self a t)) (not_lt.mp h)
      · by_cases h : f c < f a
        · rw [if_pos h]
          exact ih c b (List.mem_cons_of_mem c hb2)
        · rw [if_neg h]
          exact ih a b (List.mem_cons_of_mem a hb2)

/-! Part 9: claim theorems -/

/-- Claim C10: for every integer layer id and non-empty layer list of
length n, the guard of `get_gadm_layer` (the chained comparison that
Python makes of `layer_id < 0 | layer_id >= len(list_layers)`) is always
false, so the selected layer index is `layer_id mod n` in numpy
semantics: negative ids wrap from the end (`-1` selects the last layer)
and ids not below n wrap to `layer_id mod n` instead of clamping to the
last layer. -/
theorem C10_get_gadm_layer_mod (layer_id : ℤ) (n_layers : ℕ)
    (h : 0 < n_layers) :
    get_gadm_layer_guard layer_id n_layers = false ∧
    get_gadm_code_layer layer_id n_layers = Int.emod layer_id n_layers ∧
    get_gadm_code_layer (-1) n_layers = (n_layers : ℤ) - 1 := by
  have hg : ∀ lid : ℤ, get_gadm_layer_guard lid n_layers = false := by
    intro lid
    simp [get_gadm_layer_guard, int_zero_lor]
  refine ⟨hg layer_id, ?_, ?_⟩
  · simp [get_gadm_code_layer, hg]
  · have hn : (0 : ℤ) < (n_layers : ℤ) := by exact_mod_cast h
    simp only [get_gadm_code_layer, hg, Bool.false_eq_true, if_false]
    have he : Int.emod (-1) (n_layers : ℤ) = (-1) % (n_layers : ℤ) := rfl
    have h1 : (-1 : ℤ) = ((n_layers : ℤ) - 1) + (n_layers : ℤ) * (-1) := by ring
    rw [he, h1, Int.add_mul_emod_self_left, Int.emod_eq_of_lt (by omega) (by omega)]

/-- Witness for C10 at a concrete input: with 3 layers, layer id 7 wraps
to 7 mod 3 = 1 (not the last layer 2), and layer id -1 selects the last
layer 2. -/
theorem C10_get_gadm_layer_mod_witness :
    get_gadm_layer_guard 7 3 = false ∧
    get_gadm_code_layer 7 3 = 1 ∧
    get_gadm_code_layer 7 3 ≠ 2 ∧
    get_gadm_code_layer (-1) 3 = 2 := by
  have h := C10_get_gadm_layer_mod 7 3 (by decide)
  refine ⟨h.1, ?_, ?_, ?_⟩
  · rw [h.2.1]; decide
  · rw [h.2.1]; decide
  · rw [h.2.2]; decide

/-- Claim C8: composing the two country-code converters is the identity
on valid ISO3 codes.  The external `coco.convert` maps enter as the
parameters `conv23` (to ISO3) and `conv32` (to ISO2); the hypothesis
states the facts about them that hold for valid codes: for an ordinary
ISO3 code X, converting to ISO2 and back yields X and the ISO2 form is
never the composite "SN-GM"; for the composite "SEN-GMB", `coco`
returns "SN" and "GM" unchanged when asked for ISO2 (they already are
ISO2 codes) and maps them to "SEN" and "GMB" when asked for ISO3.  Under
these facts,
`two_2_three_digits_country (three_2_two_digits_country X) = X`, the
composite passing through the dedicated special-case branches. -/
theorem C8_country_code_round_trip (conv23 conv32 : String → String)
    (X : String)
    (h : if X = "SEN-GMB"
      then conv32 "SN" = "SN" ∧ conv32 "GM" = "GM" ∧
        conv23 "SN" = "SEN" ∧ conv23 "GM" = "GMB"
      else conv23 (conv32 X) = X ∧ conv32 X ≠ "SN-GM") :
    two_2_three_digits_country conv23 (three_2_two_digits_country conv32 X)
      = X := by
  by_cases hX : X = "SEN-GMB"
  · subst hX
    rw [if_pos rfl] at h
    obtain ⟨h1, h2, h3, h4⟩ := h
    unfold three_2_two_digits_country two_2_three_digits_country
    rw [if_pos rfl, h1, h2]
    have hsg : ("SN" : String) ++ "-" ++ "GM" = "SN-GM" := rfl
    rw [hsg, if_pos rfl, h3, h4]
    rfl
  · rw [if_neg hX] at h
    obtain ⟨h1, h2⟩ := h
    unfold three_2_two_digits_country two_2_three_digits_country
    rw [if_neg hX, if_neg h2, h1]

/-- Witness for C8 at concrete inputs: a concrete pair of conversion
maps round-trips the composite "SEN-GMB" through the special-case
branches, and an ordinary ISO3 code "MAR" through the plain branch. -/
theorem C8_country_code_round_trip_witness :
    two_2_three_digits_country
        (fun s => if s = "SN" then "SEN" else if s = "GM" then "GMB"
          else if s = "MA" then "MAR" else s)
        (three_2_two_digits_country (fun s => if s = "MAR" then "MA" else s)
          "SEN-GMB")
      = "SEN-GMB" ∧
    two_2_three_digits_country
        (fun s => if s = "SN" then "SEN" else if s = "GM" then "GMB"
          else if s = "MA" then "MAR" else s)
        (three_2_two_digits_country (fun s => if s = "MAR" then "MA" else s)
          "MAR")
      = "MAR" := by
  constructor
  · exact C8_country_code_round_trip _ _ "SEN-GMB" (by decide)
  · exact C8_country_code_round_trip _ _ "MAR" (by decide)

/-- Claim C9: in `unify_protected_shape_areas` every invalid input
geometry is replaced by its zero-width buffer before unification and
every valid geometry is passed through unchanged (positionally, so no
geometry is dropped), and provided the external `unary_union` raises a
validity error on any collection still containing an invalid geometry
(the shapely behaviour), that error propagates to the caller, since the
source wraps the union in no exception handler. -/
theorem C9_unify_repairs_and_propagates (buffer0 : PGeom → PGeom)
    (uu : List PGeom → Except String PGeom) (gs : List PGeom)
    (huu : ∀ l : List PGeom, (∃ g ∈ l, g.valid = false) →
      ∃ m, uu l = Except.error m) :
    (repairGeoms buffer0 gs).length = gs.length ∧
    (∀ (i : ℕ) (g : PGeom), gs[i]? = some g →
      (repairGeoms buffer0 gs)[i]? =
        some (if g.valid then g else buffer0 g)) ∧
    ((∃ g ∈ repairGeoms buffer0 gs, g.valid = false) →
      ∃ m, unify_protected_shape_areas buffer0 uu gs = Except.error m) := by
  refine ⟨by simp [repairGeoms], ?_, ?_⟩
  · intro i g hg
    rw [repairGeoms, List.getElem?_map, hg]
    rfl
  · intro hex
    exact huu _ hex

/-- Witness for C9 at a concrete input: a buffer that repairs tag 1 but
leaves tag 2 invalid, and a union that checks validity; the invalid
geometry survives repair and the validity error reaches the caller. -/
theorem C9_unify_repairs_and_propagates_witness :
    (repairGeoms
        (fun g => if g.tag = 1 then ⟨g.tag, true⟩ else g)
        [⟨1, false⟩, ⟨2, false⟩, ⟨3, true⟩])[2]? = some ⟨3, true⟩ ∧
    (repairGeoms
        (fun g => if g.tag = 1 then ⟨g.tag, true⟩ else g)
        [⟨1, false⟩, ⟨2, false⟩, ⟨3, true⟩])[1]? = some ⟨2, false⟩ ∧
    ∃ m, unify_protected_shape_areas
        (fun g => if g.tag = 1 then ⟨g.tag, true⟩ else g)
        (fun l => if l.all PGeom.valid then Except.ok ⟨0, true⟩
          else Except.error "TopologyException: invalid geometry")
        [⟨1, false⟩, ⟨2, false⟩, ⟨3, true⟩] = Except.error m := by
  have h := C9_unify_repairs_and_propagates
    (fun g => if g.tag = 1 then ⟨g.tag, true⟩ else g)
    (fun l => if l.all PGeom.valid then Except.ok ⟨0, true⟩
      else Except.error "TopologyException: invalid geometry")
    [⟨1, false⟩, ⟨2, false⟩, ⟨3, true⟩]
    (by
      intro l hl
      obtain ⟨g, hgl, hgv⟩ := hl
      refine ⟨"TopologyException: invalid geometry", ?_⟩
      have hall : l.all PGeom.valid = false := by
        rw [List.all_eq_false]
        exact ⟨g, hgl, by simp [hgv]⟩
      simp [hall])
  refine ⟨?_, ?_, h.2.2 ?_⟩
  · exact h.2.1 2 ⟨3, true⟩ rfl
  · exact h.2.1 1 ⟨2, false⟩ rfl
  · exact ⟨⟨2, false⟩, by decide, rfl⟩

/-- Evaluation helper: the squared distance from a point inside a box
(boundary included) to that box is zero, matching shapely distance. -/
theorem Box.distSq_of_mem (b : Box) (p : Pt) (h1 : b.x0 ≤ p.x)
    (h2 : p.x ≤ b.x1) (h3 : b.y0 ≤ p.y) (h4 : p.y ≤ b.y1) :
    b.distSq p = 0 := by
  unfold Box.distSq
  rw [max_eq_right (max_le (by linarith) (by linarith)),
    max_eq_right (max_le (by linarith) (by linarith))]
  norm_num

/-- Evaluation helper: the squared distance from a point lying to the
right of a box, within its vertical band, is the square of the
horizontal offset. -/
theorem Box.distSq_of_right (b : Box) (p : Pt) (hb : b.x0 ≤ b.x1)
    (h2 : b.x1 ≤ p.x) (h3 : b.y0 ≤ p.y) (h4 : p.y ≤ b.y1) :
    b.distSq p = (p.x - b.x1) * (p.x - b.x1) := by
  unfold Box.distSq
  rw [max_eq_right (a := b.x0 - p.x) (by linarith),
    max_eq_left (a := p.x - b.x1) (by linarith),
    max_eq_right (max_le (by linarith) (by linarith))]
  ring

/-- Claim C1 (amended): for every point and scope such that exactly one
candidate region contains the point, `locate_bus` returns the
identifier of that region.  The original claim also asserted this for
two or more containing candidates (return the first); in that case the
`.item()` call raises `ValueError` and the code falls back to the
minimum-distance scan over all candidates, which can return a
non-containing boundary region, refuted in `C1_counterexample`. -/
theorem C1_locate_bus_unique_containment (regions : List Region)
    (co : String) (p : Pt) (r : Region)
    (h : (regions.filter fun q => strContainsSub q.id co).filter
        (fun q => q.geom.containsPt p) = [r]) :
    locate_bus regions co p = Except.ok r.id := by
  simp only [locate_bus]
  rw [h]
  rfl

/-- Witness for C1 at a concrete input: of two candidate regions for
scope "MA", exactly the first contains the point (1,1), and
`locate_bus` returns its identifier. -/
theorem C1_locate_bus_unique_containment_witness :
    (([⟨"MA1", ⟨0, 0, 2, 2⟩⟩, ⟨"MA2", ⟨5, 5, 6, 6⟩⟩] : List Region).filter
          fun q => strContainsSub q.id "MA").filter
        (fun q => q.geom.containsPt ⟨1, 1⟩) = [⟨"MA1", ⟨0, 0, 2, 2⟩⟩] ∧
    locate_bus [⟨"MA1", ⟨0, 0, 2, 2⟩⟩, ⟨"MA2", ⟨5, 5, 6, 6⟩⟩] "MA" ⟨1, 1⟩
      = Except.ok "MA1" := by
  have hc1 : Box.containsPt ⟨0, 0, 2, 2⟩ ⟨1, 1⟩ = true := by
    simp only [Box.containsPt, decide_eq_true_eq]
    norm_num
  have hc2 : Box.containsPt ⟨5, 5, 6, 6⟩ ⟨1, 1⟩ = false := by
    simp only [Box.containsPt, decide_eq_false_iff_not]
    norm_num
  have hh : (([⟨"MA1", ⟨0, 0, 2, 2⟩⟩, ⟨"MA2", ⟨5, 5, 6, 6⟩⟩] : List Region).filter
        fun q => strContainsSub q.id "MA").filter
      (fun q => q.geom.containsPt ⟨1, 1⟩) = [⟨"MA1", ⟨0, 0, 2, 2⟩⟩] := by
    simp [strContainsSub, List.filter, hc1, hc2]
  exact ⟨hh, C1_locate_bus_unique_containment _ _ _ _ hh⟩

/-- Counterexample to C1 as stated: for the point (1,1) and scope "SC",
the candidates "SC2" and "SC3" both contain the point, so the first
containing region is "SC2"; yet `locate_bus` returns "SC1", a region
that merely touches the point on its boundary: the two containing rows
make `.item()` raise, and the fallback distance scan finds "SC1" first
at distance zero. -/
theorem C1_counterexample :
    locate_bus
        [⟨"SC1", ⟨0, 0, 1, 1⟩⟩, ⟨"SC2", ⟨0, 0, 2, 2⟩⟩, ⟨"SC3", ⟨0, 0, 3, 3⟩⟩]
        "SC" ⟨1, 1⟩ = Except.ok "SC1" ∧
    (([⟨"SC1", ⟨0, 0, 1, 1⟩⟩, ⟨"SC2", ⟨0, 0, 2, 2⟩⟩, ⟨"SC3", ⟨0, 0, 3, 3⟩⟩] :
          List Region).filter fun q => strContainsSub q.id "SC").filter
        (fun q => q.geom.containsPt ⟨1, 1⟩)
      = [⟨"SC2", ⟨0, 0, 2, 2⟩⟩, ⟨"SC3", ⟨0, 0, 3, 3⟩⟩] ∧
    ("SC1" : String) ≠ "SC2" := by
  have hc1 : Box.containsPt ⟨0, 0, 1, 1⟩ ⟨1, 1⟩ = false := by
    simp only [Box.containsPt, decide_eq_false_iff_not]
    norm_num
  have hc2 : Box.containsPt ⟨0, 0, 2, 2⟩ ⟨1, 1⟩ = true := by
    simp only [Box.containsPt, decide_eq_true_eq]
    norm_num
  have hc3 : Box.containsPt ⟨0, 0, 3, 3⟩ ⟨1, 1⟩ = true := by
    simp only [Box.containsPt, decide_eq_true_eq]
    norm_num
  have hd1 : Box.distSq ⟨0, 0, 1, 1⟩ ⟨1, 1⟩ = 0 :=
    Box.distSq_of_mem _ _ (by norm_num) (by norm_num) (by norm_num) (by norm_num)
  have hd2 : Box.distSq ⟨0, 0, 2, 2⟩ ⟨1, 1⟩ = 0 :=
    Box.distSq_of_mem _ _ (by norm_num) (by norm_num) (by norm_num) (by norm_num)
  have hd3 : Box.distSq ⟨0, 0, 3, 3⟩ ⟨1, 1⟩ = 0 :=
    Box.distSq_of_mem _ _ (by norm_num) (by norm_num) (by norm_num) (by norm_num)
  have hb2 : (decide ((⟨0, 0, 2, 2⟩ : Box) = ⟨0, 0, 1, 1⟩)) = false := by
    rw [decide_eq_false_iff_not]
    simp only [Box.mk.injEq, not_and]
    norm_num
  have hb3 : (decide ((⟨0, 0, 3, 3⟩ : Box) = ⟨0, 0, 1, 1⟩)) = false := by
    rw [decide_eq_false_iff_not]
    simp only [Box.mk.injEq, not_and]
    norm_num
  have hb1 : (decide ((⟨0, 0, 1, 1⟩ : Box) = ⟨0, 0, 1, 1⟩)) = true :=
    decide_eq_true rfl
  have hs1 : strContainsSub "SC1" "SC" = true := by decide
  have hs2 : strContainsSub "SC2" "SC" = true := by decide
  have hs3 : strContainsSub "SC3" "SC" = true := by decide
  refine ⟨?_, ?_, by decide⟩
  · simp only [locate_bus, List.filter, hs1, hs2, hs3, hc1, hc2, hc3]
    simp only [minBy, hd1, hd2, hd3, lt_self_iff_false, if_false]
    simp only [hb1, hb2, hb3, List.map, seriesItem]
  · simp only [List.filter, hs1, hs2, hs3, hc1, hc2, hc3]

/-- Claim C3 (amended): when the scope filter yields zero candidate
regions, `locate_bus` raises an error and never returns a region
identifier, but the error is the generic Python ValueError
"min() arg is an empty sequence" from taking the minimum of an empty
geometry sequence in the fallback, not a descriptive "no candidate
region" message (refuted in `C3_counterexample`). -/
theorem C3_locate_bus_empty_scope (regions : List Region) (co : String)
    (p : Pt)
    (h : regions.filter (fun q => strContainsSub q.id co) = []) :
    locate_bus regions co p
      = Except.error "min() arg is an empty sequence" := by
  simp only [locate_bus]
  rw [h]
  rfl

/-- Witness for C3 at a concrete input: the only region fails the scope
filter for "MA", and `locate_bus` surfaces the empty-sequence error. -/
theorem C3_locate_bus_empty_scope_witness :
    ([⟨"KE1", ⟨0, 0, 1, 1⟩⟩] : List Region).filter
        (fun q => strContainsSub q.id "MA") = [] ∧
    locate_bus [⟨"KE1", ⟨0, 0, 1, 1⟩⟩] "MA" ⟨0, 0⟩
      = Except.error "min() arg is an empty sequence" := by
  have h : ([⟨"KE1", ⟨0, 0, 1, 1⟩⟩] : List Region).filter
      (fun q => strContainsSub q.id "MA") = [] := by
    have hs : strContainsSub "KE1" "MA" = false := by decide
    simp only [List.filter, hs]
  exact ⟨h, C3_locate_bus_empty_scope _ _ _ h⟩

/-- Counterexample to C3 as stated: with zero candidate regions for the
scope, the error that reaches the caller is the generic Python message
"min() arg is an empty sequence", which mentions neither candidates nor
regions, so it is not a descriptive "no candidate region" error. -/
theorem C3_counterexample :
    locate_bus [⟨"KE1", ⟨0, 0, 1, 1⟩⟩] "MA" ⟨0, 0⟩
      = Except.error "min() arg is an empty sequence" ∧
    strContainsSub "min() arg is an empty sequence" "candidate" = false ∧
    strContainsSub "min() arg is an empty sequence" "region" = false := by
  have hs : strContainsSub "KE1" "MA" = false := by decide
  refine ⟨?_, by decide, by decide⟩
  simp only [locate_bus, List.filter, hs]
  rfl

/-- Claim C2 (amended): for a point contained by no candidate region and
a non-empty candidate set, provided the geometry attaining the minimum
distance occurs in exactly one candidate row, `locate_bus` returns the
identifier of the minimum-distance candidate, the first in iteration
order among ties; when the minimum-distance geometry is shared by two or
more rows, the final `.item()` raises a size error instead of returning
an identifier (refuted as originally stated in `C2_counterexample`). -/
theorem C2_locate_bus_nearest_fallback (regions : List Region)
    (co : String) (p : Pt) (r0 m : Region) (rest : List Region)
    (hsc : regions.filter (fun q => strContainsSub q.id co) = r0 :: rest)
    (hnc : (r0 :: rest).filter (fun q => q.geom.containsPt p) = [])
    (huniq : (r0 :: rest).filter
        (fun q => decide
          (q.geom = (minBy (fun q2 => q2.geom.distSq p) r0 rest).geom))
      = [m]) :
    locate_bus regions co p = Except.ok m.id ∧
    ∀ q ∈ r0 :: rest, m.geom.distSq p ≤ q.geom.distSq p := by
  constructor
  · simp only [locate_bus]
    rw [hsc, hnc]
    simp only [List.map_nil, seriesItem]
    rw [huniq]
    rfl
  · intro q hq
    have hm : m ∈ (r0 :: rest).filter
        (fun q => decide
          (q.geom = (minBy (fun q2 => q2.geom.distSq p) r0 rest).geom)) := by
      rw [huniq]
      exact List.mem_singleton.mpr rfl
    have hgeom : m.geom = (minBy (fun q2 => q2.geom.distSq p) r0 rest).geom :=
      of_decide_eq_true (List.mem_filter.mp hm).2
    rw [hgeom]
    exact minBy_le (fun q2 => q2.geom.distSq p) r0 rest q hq

/-- Witness for C2 at the concrete input of the spec: three candidate
regions at distances 1, 2, 3 from the point (squared distances 1, 4, 9),
none containing it; `locate_bus` returns the identifier of the region at
distance 1. -/
theorem C2_locate_bus_nearest_fallback_witness :
    Box.distSq ⟨0, -1, 9, 1⟩ ⟨10, 0⟩ = 1 ∧
    Box.distSq ⟨0, -1, 8, 1⟩ ⟨10, 0⟩ = 4 ∧
    Box.distSq ⟨0, -1, 7, 1⟩ ⟨10, 0⟩ = 9 ∧
    locate_bus
        [⟨"SCa", ⟨0, -1, 9, 1⟩⟩, ⟨"SCb", ⟨0, -1, 8, 1⟩⟩,
          ⟨"SCc", ⟨0, -1, 7, 1⟩⟩] "SC" ⟨10, 0⟩
      = Except.ok "SCa" := by
  have hdA : Box.distSq ⟨0, -1, 9, 1⟩ ⟨10, 0⟩ = 1 := by
    rw [Box.distSq_of_right _ _ (by norm_num) (by norm_num) (by norm_num)
      (by norm_num)]
    norm_num
  have hdB : Box.distSq ⟨0, -1, 8, 1⟩ ⟨10, 0⟩ = 4 := by
    rw [Box.distSq_of_right _ _ (by norm_num) (by norm_num) (by norm_num)
      (by norm_num)]
    norm_num
  have hdC : Box.distSq ⟨0, -1, 7, 1⟩ ⟨10, 0⟩ = 9 := by
    rw [Box.distSq_of_right _ _ (by norm_num) (by norm_num) (by norm_num)
      (by norm_num)]
    norm_num
  have hcA : Box.containsPt ⟨0, -1, 9, 1⟩ ⟨10, 0⟩ = false := by
    simp only [Box.containsPt, decide_eq_false_iff_not]
    norm_num
  have hcB : Box.containsPt ⟨0, -1, 8, 1⟩ ⟨10, 0⟩ = false := by
    simp only [Box.containsPt, decide_eq_false_iff_not]
    norm_num
  have hcC : Box.containsPt ⟨0, -1, 7, 1⟩ ⟨10, 0⟩ = false := by
    simp only [Box.containsPt, decide_eq_false_iff_not]
    norm_num
  have hsA : strContainsSub "SCa" "SC" = true := by decide
  have hsB : strContainsSub "SCb" "SC" = true := by decide
  have hsC : strContainsSub "SCc" "SC" = true := by decide
  have hmin : minBy (fun q2 => q2.geom.distSq (⟨10, 0⟩ : Pt))
      (⟨"SCa", ⟨0, -1, 9, 1⟩⟩ : Region)
      [⟨"SCb", ⟨0, -1, 8, 1⟩⟩, ⟨"SCc", ⟨0, -1, 7, 1⟩⟩]
      = ⟨"SCa", ⟨0, -1, 9, 1⟩⟩ := by
    simp only [minBy, hdA, hdB, hdC]
    norm_num
  have hbA : (decide ((⟨0, -1, 9, 1⟩ : Box) = ⟨0, -1, 9, 1⟩)) = true :=
    decide_eq_true rfl
  have hbB : (decide ((⟨0, -1, 8, 1⟩ : Box) = ⟨0, -1, 9, 1⟩)) = false := by
    rw [decide_eq_false_iff_not]
    simp only [Box.mk.injEq, not_and]
    norm_num
  have hbC : (decide ((⟨0, -1, 7, 1⟩ : Box) = ⟨0, -1, 9, 1⟩)) = false := by
    rw [decide_eq_false_iff_not]
    simp only [Box.mk.injEq, not_and]
    norm_num
  have hsc : ([⟨"SCa", ⟨0, -1, 9, 1⟩⟩, ⟨"SCb", ⟨0, -1, 8, 1⟩⟩,
      ⟨"SCc", ⟨0, -1, 7, 1⟩⟩] : List Region).filter
        (fun q => strContainsSub q.id "SC")
      = [⟨"SCa", ⟨0, -1, 9, 1⟩⟩, ⟨"SCb", ⟨0, -1, 8, 1⟩⟩,
          ⟨"SCc", ⟨0, -1, 7, 1⟩⟩] := by
    simp only [List.filter, hsA, hsB, hsC]
  have hnc : ([⟨"SCa", ⟨0, -1, 9, 1⟩⟩, ⟨"SCb", ⟨0, -1, 8, 1⟩⟩,
      ⟨"SCc", ⟨0, -1, 7, 1⟩⟩] : List Region).filter
        (fun q => q.geom.containsPt ⟨10, 0⟩) = [] := by
    simp only [List.filter, hcA, hcB, hcC]
  have huniq : ([⟨"SCa", ⟨0, -1, 9, 1⟩⟩, ⟨"SCb", ⟨0, -1, 8, 1⟩⟩,
      ⟨"SCc", ⟨0, -1, 7, 1⟩⟩] : List Region).filter
        (fun q => decide (q.geom =
          (minBy (fun q2 => q2.geom.distSq (⟨10, 0⟩ : Pt))
            (⟨"SCa", ⟨0, -1, 9, 1⟩⟩ : Region)
            [⟨"SCb", ⟨0, -1, 8, 1⟩⟩, ⟨"SCc", ⟨0, -1, 7, 1⟩⟩]).geom))
      = [⟨"SCa", ⟨0, -1, 9, 1⟩⟩] := by
    simp only [hmin, List.filter, hbA, hbB, hbC]
    rfl
  exact ⟨hdA, hdB, hdC,
    (C2_locate_bus_nearest_fallback _ _ _ _ _ _ hsc hnc huniq).1⟩

/-- Counterexample to C2 as stated: two candidate regions share an
identical geometry, the point is contained by neither, and the claim
promises the identifier of the first minimum-distance region ("SCa");
instead the final `.item()` sees two rows matching the minimum-distance
geometry and raises the size ValueError, so no identifier is
returned. -/
theorem C2_counterexample :
    ([⟨"SCa", ⟨0, 0, 1, 1⟩⟩, ⟨"SCb", ⟨0, 0, 1, 1⟩⟩] : List Region).filter
        (fun q => q.geom.containsPt ⟨3, 0⟩) = [] ∧
    locate_bus [⟨"SCa", ⟨0, 0, 1, 1⟩⟩, ⟨"SCb", ⟨0, 0, 1, 1⟩⟩] "SC" ⟨3, 0⟩
      = Except.error "can only convert an array of size 1 to a Python scalar" ∧
    locate_bus [⟨"SCa", ⟨0, 0, 1, 1⟩⟩, ⟨"SCb", ⟨0, 0, 1, 1⟩⟩] "SC" ⟨3, 0⟩
      ≠ Except.ok "SCa" := by
  have hc : Box.containsPt ⟨0, 0, 1, 1⟩ ⟨3, 0⟩ = false := by
    simp only [Box.containsPt, decide_eq_false_iff_not]
    norm_num
  have hsA : strContainsSub "SCa" "SC" = true := by decide
  have hsB : strContainsSub "SCb" "SC" = true := by decide
  have hb : (decide ((⟨0, 0, 1, 1⟩ : Box) = ⟨0, 0, 1, 1⟩)) = true :=
    decide_eq_true rfl
  have heval : locate_bus [⟨"SCa", ⟨0, 0, 1, 1⟩⟩, ⟨"SCb", ⟨0, 0, 1, 1⟩⟩]
      "SC" ⟨3, 0⟩
      = Except.error "can only convert an array of size 1 to a Python scalar" := by
    simp only [locate_bus, List.filter, hsA, hsB, hc]
    simp only [minBy, lt_self_iff_false, if_false, hb, List.map, seriesItem]
  refine ⟨by simp only [List.filter, hc], heval, ?_⟩
  rw [heval]
  intro hcontra
  exact Except.noConfusion hcontra

/-- Claim C4: from the two raw line records (A,B,length 10) and
(B,A,length 10) with A < B, `create_network_topology` with
bidirectional true returns exactly one row, keyed
prefix ++ A ++ connector ++ B, with bus0 = A, bus1 = B and length 10
(the arithmetic mean of the two duplicates); with bidirectional false it
returns exactly two rows, the canonical row followed by a reversed copy
with swapped buses and identifier prefix ++ B ++ connector ++ A. -/
theorem C4_topology_symmetry_and_duplication (A B pfx conn : String)
    (h : A < B) :
    create_network_topology [⟨A, B, 10⟩, ⟨B, A, 10⟩] [] pfx conn true
      = [⟨makeIndex pfx conn A B, A, B, 10, 0⟩] ∧
    create_network_topology [⟨A, B, 10⟩, ⟨B, A, 10⟩] [] pfx conn false
      = [⟨makeIndex pfx conn A B, A, B, 10, 0⟩,
          ⟨makeIndex pfx conn B A, B, A, 10, 0⟩] := by
  have hAB : strLtB A B = true := (strLtB_eq_true_iff A B).mpr h
  have hBA : strLtB B A = false := (strLtB_eq_false_iff B A).mpr (lt_asymm h)
  have hnorm : normalizeCands (candidatesOf [⟨A, B, 10⟩, ⟨B, A, 10⟩] [])
      = [⟨A, B, 10, 0⟩, ⟨A, B, 10, 0⟩] := by
    simp [candidatesOf, normalizeCands, List.filter, hAB, hBA, swapBuses]
  have hkeys : topoKeys [⟨A, B, 10, 0⟩, ⟨A, B, 10, 0⟩] = [(A, B)] := by
    simp only [topoKeys, List.map]
    rw [List.dedup_cons_of_mem (List.mem_singleton.mpr rfl),
      List.dedup_cons_of_not_mem (List.not_mem_nil _), List.dedup_nil]
    simp [List.insertionSort, List.orderedInsert]
  have hgroup : groupRows [⟨A, B, 10, 0⟩, ⟨A, B, 10, 0⟩] (A, B)
      = [⟨A, B, 10, 0⟩, ⟨A, B, 10, 0⟩] := by
    simp [groupRows]
  have hmean : qmean [(10 : ℚ), 10] = 10 := by
    norm_num [qmean]
  have hzero : qmean [(0 : ℚ), 0] = 0 := by
    norm_num [qmean]
  constructor
  · simp only [create_network_topology, hnorm, hkeys, List.map, hgroup,
      if_true]
    simp [hmean, hzero]
  · simp only [create_network_topology, hnorm, hkeys, List.map, hgroup,
      Bool.false_eq_true, if_false, reverseRow]
    simp [hmean, hzero, reverseRow]

/-- Witness for C4 at concrete inputs A = "A", B = "B", prefix "p",
connector " <-> ": one canonical row when bidirectional, the canonical
and the reversed row otherwise. -/
theorem C4_topology_symmetry_and_duplication_witness :
    create_network_topology [⟨"A", "B", 10⟩, ⟨"B", "A", 10⟩] [] "p" " <-> "
        true = [⟨"pA <-> B", "A", "B", 10, 0⟩] ∧
    create_network_topology [⟨"A", "B", 10⟩, ⟨"B", "A", 10⟩] [] "p" " <-> "
        false = [⟨"pA <-> B", "A", "B", 10, 0⟩,
          ⟨"pB <-> A", "B", "A", 10, 0⟩] := by
  have hlt : ("A" : String) < "B" := by
    rw [← strLtB_eq_true_iff]
    decide
  have h := C4_topology_symmetry_and_duplication "A" "B" "p" " <-> " hlt
  exact ⟨h.1.trans rfl, h.2.trans rfl⟩

/-- Every candidate row assembled by `candidatesOf` has distinct
endpoints when every input line and link does. -/
theorem candidatesOf_ne (lines : List LineRec) (links : List LinkRow)
    (hl : ∀ e ∈ lines, e.bus0 ≠ e.bus1)
    (hk : ∀ e ∈ links, e.bus0 ≠ e.bus1) :
    ∀ c ∈ candidatesOf lines links, c.bus0 ≠ c.bus1 := by
  intro c hc
  rcases List.mem_append.mp hc with h1 | h1
  · obtain ⟨e, he, rfl⟩ := List.mem_map.mp h1
    exact hl e he
  · obtain ⟨e, he, rfl⟩ := List.mem_map.mp h1
    exact hk e (List.mem_filter.mp he).1

/-- After normalization every candidate with distinct endpoints
satisfies the strict canonical order bus0 < bus1. -/
theorem normalizeCands_lt (cs : List Cand)
    (hne : ∀ c ∈ cs, c.bus0 ≠ c.bus1) :
    ∀ c ∈ normalizeCands cs, c.bus0 < c.bus1 := by
  intro c hc
  rcases List.mem_append.mp hc with hcl | hcr
  · exact (strLtB_eq_true_iff _ _).mp (List.mem_filter.mp hcl).2
  · obtain ⟨c0, hc0, rfl⟩ := List.mem_map.mp hcr
    have h0 := List.mem_filter.mp hc0
    have hfalse : strLtB c0.bus0 c0.bus1 = false := by
      simpa using h0.2
    have hnlt : ¬ c0.bus0 < c0.bus1 := (strLtB_eq_false_iff _ _).mp hfalse
    have hlt : c0.bus1 < c0.bus0 :=
      lt_of_le_of_ne (not_lt.mp hnlt) (Ne.symm (hne c0 h0.1))
    simpa [swapBuses] using hlt

/-- Claim C5 (amended): for every input edge set in which no edge is a
self-loop (bus0 = bus1), every row returned by
`create_network_topology` with bidirectional true satisfies
bus0 < bus1 lexicographically, because every edge with bus0 not below
bus1 is swapped during normalization.  Without the no-self-loop
restriction only bus0 ≤ bus1 holds: a self-loop row has bus0 = bus1,
refuted in `C5_counterexample`. -/
theorem C5_topology_canonical_order (lines : List LineRec)
    (links : List LinkRow) (pfx conn : String)
    (hl : ∀ e ∈ lines, e.bus0 ≠ e.bus1)
    (hk : ∀ e ∈ links, e.bus0 ≠ e.bus1) :
    ∀ row ∈ create_network_topology lines links pfx conn true,
      row.bus0 < row.bus1 := by
  intro row hrow
  simp only [create_network_topology, if_true] at hrow
  obtain ⟨k, hkmem, rfl⟩ := List.mem_map.mp hrow
  have hk3 : k ∈ ((normalizeCands (candidatesOf lines links)).map
      fun c => (c.bus0, c.bus1)).dedup := by
    simpa [topoKeys, (List.perm_insertionSort keyLE _).mem_iff] using hkmem
  obtain ⟨c, hc, hck⟩ := List.mem_map.mp (List.mem_dedup.mp hk3)
  have hlt := normalizeCands_lt _ (candidatesOf_ne lines links hl hk) c hc
  rw [← hck]
  simpa using hlt

/-- Witness for C5 at a concrete input: the single edge ("A","B") has
distinct endpoints, its canonical row appears in the topology, and the
theorem yields "A" < "B" for it. -/
theorem C5_topology_canonical_order_witness :
    (⟨"pA-B", "A", "B", 4, 0⟩ : TopoRow) ∈
      create_network_topology [⟨"A", "B", 4⟩] [] "p" "-" true ∧
    ("A" : String) < "B" := by
  have hAB : strLtB "A" "B" = true := by decide
  have hnorm : normalizeCands (candidatesOf [⟨"A", "B", 4⟩] [])
      = [⟨"A", "B", 4, 0⟩] := by
    simp [candidatesOf, normalizeCands, List.filter, hAB]
  have hkeys : topoKeys [⟨"A", "B", 4, 0⟩] = [("A", "B")] := by
    simp only [topoKeys, List.map]
    rw [List.dedup_cons_of_not_mem (List.not_mem_nil _), List.dedup_nil]
    simp [List.insertionSort, List.orderedInsert]
  have hgroup : groupRows [⟨"A", "B", 4, 0⟩] ("A", "B")
      = [⟨"A", "B", 4, 0⟩] := by
    simp [groupRows]
  have hcreate : create_network_topology [⟨"A", "B", 4⟩] [] "p" "-" true
      = [⟨"pA-B", "A", "B", 4, 0⟩] := by
    simp only [create_network_topology, hnorm, hkeys, List.map, hgroup,
      if_true]
    norm_num [qmean, makeIndex]
    rfl
  have hmem : (⟨"pA-B", "A", "B", 4, 0⟩ : TopoRow) ∈
      create_network_topology [⟨"A", "B", 4⟩] [] "p" "-" true := by
    rw [hcreate]
    exact List.mem_singleton.mpr rfl
  exact ⟨hmem,
    C5_topology_canonical_order [⟨"A", "B", 4⟩] [] "p" "-"
      (by simp) (by simp) _ hmem⟩

/-- Counterexample to C5 as stated: the self-loop line ("A","A") is a
legal input edge set; its canonical row survives normalization with
bus0 = bus1 = "A", so the returned topology contains a row violating
the strict order bus0 < bus1. -/
theorem C5_counterexample :
    create_network_topology [⟨"A", "A", 5⟩] [] "p" "-" true
      = [⟨"pA-A", "A", "A", 5, 0⟩] ∧
    ¬ (("A" : String) < "A") := by
  have hAA : strLtB "A" "A" = false := by decide
  have hnorm : normalizeCands (candidatesOf [⟨"A", "A", 5⟩] [])
      = [⟨"A", "A", 5, 0⟩] := by
    simp [candidatesOf, normalizeCands, List.filter, hAA, swapBuses]
  have hkeys : topoKeys [⟨"A", "A", 5, 0⟩] = [("A", "A")] := by
    simp only [topoKeys, List.map]
    rw [List.dedup_cons_of_not_mem (List.not_mem_nil _), List.dedup_nil]
    simp [List.insertionSort, List.orderedInsert]
  have hgroup : groupRows [⟨"A", "A", 5, 0⟩] ("A", "A")
      = [⟨"A", "A", 5, 0⟩] := by
    simp [groupRows]
  refine ⟨?_, lt_irrefl _⟩
  simp only [create_network_topology, hnorm, hkeys, List.map, hgroup,
    if_true]
  norm_num [qmean, makeIndex, swapBuses]
  rfl

/-- Claim C6: every link of the target carrier with length L gets
efficiency `efficiency_static * efficiency_per_1000km ^ (L / 1000)`
(real power modelling the float `**`), and in particular a link of
length 0 gets efficiency exactly `efficiency_static`. -/
theorem C6_length_based_efficiency (cfg : EffConfig ℝ)
    (carrier bus_sfx : String) (links : List (Link ℝ)) (i : ℕ)
    (l l2 : Link ℝ) (hl : links[i]? = some l)
    (hl2 : (set_length_based_efficiency (fun a b => a ^ b) carrier bus_sfx
      cfg links)[i]? = some l2)
    (hc : l.carrier = carrier) :
    l2.efficiency = cfg.efficiency_static.getD 1 *
      (cfg.efficiency_per_1000km.getD 1) ^ (l.length / 1000) ∧
    (l.length = 0 → l2.efficiency = cfg.efficiency_static.getD 1) := by
  simp only [set_length_based_efficiency] at hl2
  rw [List.getElem?_map, hl] at hl2
  have hbeq : (l.carrier == carrier) = true := beq_iff_eq.mpr hc
  have hF := Option.some.inj hl2
  subst hF
  have heff : (if (l.carrier == carrier) = true then
      (if 0 < cfg.compression_per_1000km.getD 0 then
        ({ { l with efficiency := cfg.efficiency_static.getD 1 *
            (cfg.efficiency_per_1000km.getD 1) ^ (l.length / 1000) } with
          bus2 := some (removeSfx l.bus0 bus_sfx),
          efficiency2 := some (-(cfg.compression_per_1000km.getD 0) *
            l.length / 1000) } : Link ℝ)
      else { l with efficiency := cfg.efficiency_static.getD 1 *
          (cfg.efficiency_per_1000km.getD 1) ^ (l.length / 1000) })
    else l).efficiency = cfg.efficiency_static.getD 1 *
      (cfg.efficiency_per_1000km.getD 1) ^ (l.length / 1000) := by
    rw [if_pos hbeq]
    by_cases hcp : 0 < cfg.compression_per_1000km.getD 0
    · rw [if_pos hcp]
    · rw [if_neg hcp]
  refine ⟨heff, fun h0 => ?_⟩
  rw [heff, h0, zero_div, Real.rpow_zero, mul_one]

/-- Witness for C6 at the concrete configuration of the spec:
efficiency_static 0.98, efficiency_per_1000km 0.95; the link of length
2000 gets efficiency 0.98 * 0.95 ^ 2 = 0.88445 exactly in the real
model, and the link of length 0 gets exactly 0.98. -/
theorem C6_length_based_efficiency_witness :
    (0.98 : ℝ) * (0.95 : ℝ) ^ ((2000 : ℝ) / 1000) = 0.88445 ∧
    ((set_length_based_efficiency (fun a b : ℝ => a ^ b) "H2 pipeline"
        " H2" ⟨some 0.98, some 0.95, none⟩
        [⟨"H2 pipeline", "b0 H2", 2000, 1, none, none⟩,
          ⟨"H2 pipeline", "b1 H2", 0, 1, none, none⟩])[0]?).map
      Link.efficiency = some (0.88445 : ℝ) ∧
    ((set_length_based_efficiency (fun a b : ℝ => a ^ b) "H2 pipeline"
        " H2" ⟨some 0.98, some 0.95, none⟩
        [⟨"H2 pipeline", "b0 H2", 2000, 1, none, none⟩,
          ⟨"H2 pipeline", "b1 H2", 0, 1, none, none⟩])[1]?).map
      Link.efficiency = some (0.98 : ℝ) := by
  have harith : (0.98 : ℝ) * (0.95 : ℝ) ^ ((2000 : ℝ) / 1000)
      = 0.88445 := by
    have h2 : ((2000 : ℝ) / 1000) = ((2 : ℕ) : ℝ) := by norm_num
    rw [h2, Real.rpow_natCast]
    norm_num
  have hs0 : (set_length_based_efficiency (fun a b : ℝ => a ^ b)
      "H2 pipeline" " H2" ⟨some 0.98, some 0.95, none⟩
      [⟨"H2 pipeline", "b0 H2", 2000, 1, none, none⟩,
        ⟨"H2 pipeline", "b1 H2", 0, 1, none, none⟩])[0]?
      = some ⟨"H2 pipeline", "b0 H2", 2000,
          (0.98 : ℝ) * (0.95 : ℝ) ^ ((2000 : ℝ) / 1000), none, none⟩ := by
    simp [set_length_based_efficiency]
  have hs1 : (set_length_based_efficiency (fun a b : ℝ => a ^ b)
      "H2 pipeline" " H2" ⟨some 0.98, some 0.95, none⟩
      [⟨"H2 pipeline", "b0 H2", 2000, 1, none, none⟩,
        ⟨"H2 pipeline", "b1 H2", 0, 1, none, none⟩])[1]?
      = some ⟨"H2 pipeline", "b1 H2", 0,
          (0.98 : ℝ) * (0.95 : ℝ) ^ ((0 : ℝ) / 1000), none, none⟩ := by
    simp [set_length_based_efficiency]
  have h0 := C6_length_based_efficiency ⟨some 0.98, some 0.95, none⟩
    "H2 pipeline" " H2"
    [⟨"H2 pipeline", "b0 H2", 2000, 1, none, none⟩,
      ⟨"H2 pipeline", "b1 H2", 0, 1, none, none⟩] 0
    (⟨"H2 pipeline", "b0 H2", 2000, 1, none, none⟩ : Link ℝ)
    (⟨"H2 pipeline", "b0 H2", 2000,
      (0.98 : ℝ) * (0.95 : ℝ) ^ ((2000 : ℝ) / 1000), none, none⟩ : Link ℝ)
    rfl hs0 rfl
  have h1 := C6_length_based_efficiency ⟨some 0.98, some 0.95, none⟩
    "H2 pipeline" " H2"
    [⟨"H2 pipeline", "b0 H2", 2000, 1, none, none⟩,
      ⟨"H2 pipeline", "b1 H2", 0, 1, none, none⟩] 1
    (⟨"H2 pipeline", "b1 H2", 0, 1, none, none⟩ : Link ℝ)
    (⟨"H2 pipeline", "b1 H2", 0,
      (0.98 : ℝ) * (0.95 : ℝ) ^ ((0 : ℝ) / 1000), none, none⟩ : Link ℝ)
    rfl hs1 rfl
  have he0 : (⟨"H2 pipeline", "b0 H2", 2000,
      (0.98 : ℝ) * (0.95 : ℝ) ^ ((2000 : ℝ) / 1000), none, none⟩ :
      Link ℝ).efficiency = 0.88445 := h0.1.trans harith
  have he1 : (⟨"H2 pipeline", "b1 H2", 0,
      (0.98 : ℝ) * (0.95 : ℝ) ^ ((0 : ℝ) / 1000), none, none⟩ :
      Link ℝ).efficiency = 0.98 := h1.2 rfl
  refine ⟨harith, ?_, ?_⟩
  · rw [hs0]
    exact congrArg some he0
  · rw [hs1]
    exact congrArg some he1

/-- Claim C7: `set_length_based_efficiency` sets the auxiliary endpoint
bus2 and the secondary efficiency on a matching link exactly when the
compression coefficient is positive; when set, bus2 is the source bus
with the type suffix removed and the secondary efficiency is
`-compression_per_1000km * length / 1000`; otherwise both fields are
left exactly as they were on the input link. -/
theorem C7_compression_draw {K : Type} [LinearOrderedField K]
    (pw : K → K → K) (carrier bus_sfx : String) (cfg : EffConfig K)
    (links : List (Link K)) (i : ℕ) (l l2 : Link K)
    (hl : links[i]? = some l)
    (hl2 : (set_length_based_efficiency pw carrier bus_sfx cfg
      links)[i]? = some l2) :
    (l.carrier = carrier ∧ 0 < cfg.compression_per_1000km.getD 0 →
      l2.bus2 = some (removeSfx l.bus0 bus_sfx) ∧
      l2.efficiency2 = some (-(cfg.compression_per_1000km.getD 0) *
        l.length / 1000)) ∧
    (¬ (l.carrier = carrier ∧ 0 < cfg.compression_per_1000km.getD 0) →
      l2.bus2 = l.bus2 ∧ l2.efficiency2 = l.efficiency2) := by
  simp only [set_length_based_efficiency] at hl2
  rw [List.getElem?_map, hl] at hl2
  have hF := Option.some.inj hl2
  subst hF
  beta_reduce
  constructor
  · rintro ⟨hc, hcp⟩
    rw [if_pos (beq_iff_eq.mpr hc), if_pos hcp]
    exact ⟨rfl, rfl⟩
  · intro hn
    by_cases hc : l.carrier = carrier
    · have hcp : ¬ 0 < cfg.compression_per_1000km.getD 0 :=
        fun hcp => hn ⟨hc, hcp⟩
      rw [if_pos (beq_iff_eq.mpr hc), if_neg hcp]
      exact ⟨rfl, rfl⟩
    · rw [if_neg (fun hbeq => hc (beq_iff_eq.mp hbeq))]
      exact ⟨rfl, rfl⟩

/-- Witness for C7 at concrete inputs over the rationals: with
compression 0.01 and length 1000 the matching link gets
bus2 = "node1" (the suffix " H2" removed from "node1 H2") and secondary
efficiency exactly -0.01; with compression 0 both fields stay unset. -/
theorem C7_compression_draw_witness :
    ((set_length_based_efficiency (fun a b : ℚ => a * b) "H2 pipeline"
        " H2" ⟨none, none, some 0.01⟩
        [⟨"H2 pipeline", "node1 H2", 1000, 1, none, none⟩])[0]?).map
      Link.bus2 = some (some "node1") ∧
    ((set_length_based_efficiency (fun a b : ℚ => a * b) "H2 pipeline"
        " H2" ⟨none, none, some 0.01⟩
        [⟨"H2 pipeline", "node1 H2", 1000, 1, none, none⟩])[0]?).map
      Link.efficiency2 = some (some (-0.01 : ℚ)) ∧
    ((set_length_based_efficiency (fun a b : ℚ => a * b) "H2 pipeline"
        " H2" ⟨none, none, some 0⟩
        [⟨"H2 pipeline", "node1 H2", 1000, 1, none, none⟩])[0]?).map
      Link.bus2 = some (none : Option String) ∧
    ((set_length_based_efficiency (fun a b : ℚ => a * b) "H2 pipeline"
        " H2" ⟨none, none, some 0⟩
        [⟨"H2 pipeline", "node1 H2", 1000, 1, none, none⟩])[0]?).map
      Link.efficiency2 = some (none : Option ℚ) := by
  have hs0 : (set_length_based_efficiency (fun a b : ℚ => a * b)
      "H2 pipeline" " H2" ⟨none, none, some 0.01⟩
      [⟨"H2 pipeline", "node1 H2", 1000, 1, none, none⟩])[0]?
      = some ⟨"H2 pipeline", "node1 H2", 1000, 1 * (1 * (1000 / 1000)),
          some (removeSfx "node1 H2" " H2"),
          some (-(0.01 : ℚ) * 1000 / 1000)⟩ := by
    norm_num [set_length_based_efficiency]
  have hs1 : (set_length_based_efficiency (fun a b : ℚ => a * b)
      "H2 pipeline" " H2" ⟨none, none, some 0⟩
      [⟨"H2 pipeline", "node1 H2", 1000, 1, none, none⟩])[0]?
      = some ⟨"H2 pipeline", "node1 H2", 1000, 1 * (1 * (1000 / 1000)),
          none, none⟩ := by
    norm_num [set_length_based_efficiency]
  have h0 := C7_compression_draw (fun a b : ℚ => a * b) "H2 pipeline"
    " H2" ⟨none, none, some 0.01⟩
    [⟨"H2 pipeline", "node1 H2", 1000, 1, none, none⟩] 0
    (⟨"H2 pipeline", "node1 H2", 1000, 1, none, none⟩ : Link ℚ)
    (⟨"H2 pipeline", "node1 H2", 1000, 1 * (1 * (1000 / 1000)),
      some (removeSfx "node1 H2" " H2"),
      some (-(0.01 : ℚ) * 1000 / 1000)⟩ : Link ℚ) rfl hs0
  have h1 := C7_compression_draw (fun a b : ℚ => a * b) "H2 pipeline"
    " H2" ⟨none, none, some 0⟩
    [⟨"H2 pipeline", "node1 H2", 1000, 1, none, none⟩] 0
    (⟨"H2 pipeline", "node1 H2", 1000, 1, none, none⟩ : Link ℚ)
    (⟨"H2 pipeline", "node1 H2", 1000, 1 * (1 * (1000 / 1000)),
      none, none⟩ : Link ℚ) rfl hs1
  have hset := h0.1 ⟨rfl, by norm_num⟩
  have hunset := h1.2 (by
    rintro ⟨-, hcp⟩
    norm_num at hcp)
  have hrs : removeSfx "node1 H2" " H2" = "node1" := by decide
  refine ⟨?_, ?_, ?_, ?_⟩
  · rw [hs0]
    refine congrArg some (hset.1.trans ?_)
    rw [hrs]
  · rw [hs0]
    refine congrArg some (hset.2.trans ?_)
    norm_num
  · rw [hs1]
    exact congrArg some hunset.1
  · rw [hs1]
    exact congrArg some hunset.2
